import Mathlib

/-!
Shallow embedding of the Nexus Ray workflow-orchestration core
(`src/core/task.py`, `src/core/dag.py`, `src/core/executor.py`,
`src/core/orchestrator.py`) and proofs about it.

Python dicts are modelled as ordered association lists (`StrMap`), Python
sets as duplicate-free lists, exceptions as an explicit error type threaded
through results.  Mutation of shared objects (the orchestrator writes
resolved inputs back into the shared `TaskDefinition`) is modelled by
explicit state passing of the task-definition store.
-/

namespace NexusRay

/-- `TaskStatus` from `src/core/task.py`. -/
inductive TaskStatus
  | pending
  | running
  | success
  | failed
  | waiting_human
  | cancelled
  deriving DecidableEq, Repr

/-- `TaskType` from `src/core/task.py`. -/
inductive TaskType
  | llm
  | tool
  | human
  | agent
  deriving DecidableEq, Repr

/-- JSON-like values stored in the string-keyed `inputs` / `outputs` /
`hitl_config` dictionaries of the data model. -/
inductive Val
  | str (s : String)
  | bool (b : Bool)
  | int (n : Int)
  | map (m : List (String × Val))
  | none

/-- A Python `Dict[str, Any]`: insertion-ordered association list with
unique keys maintained by `dinsert`. -/
abbrev StrMap := List (String × Val)

/-- `d[k] = v` on a Python dict: replaces the value of the (unique) entry
with that key in place, otherwise appends the new binding. -/
def dinsert : StrMap → String → Val → StrMap
  | [], k, v => [(k, v)]
  | kv :: rest, k, v =>
    if kv.1 == k then (kv.1, v) :: rest else kv :: dinsert rest k v

/-- `{**a, **b}` on Python dicts: entries of `b` override or extend `a`. -/
def dmerge (a b : StrMap) : StrMap :=
  b.foldl (fun acc kv => dinsert acc kv.1 kv.2) a

/-- `TaskDefinition` from `src/core/task.py` (fields the core reads;
`started_at`-style wall-clock data is outside the model). -/
structure TaskDefinition where
  task_id : String
  name : String := ""
  task_type : TaskType
  depends_on : List String := []
  inputs : StrMap := []
  max_retries : Nat := 3
  timeout_seconds : Option Nat := Option.none
  hitl_config : Option (List (String × Val)) := Option.none

/-- `TaskResult` from `src/core/task.py` (wall-clock timestamps omitted). -/
structure TaskResult where
  task_id : String
  status : TaskStatus
  outputs : StrMap := []
  error : Option String := Option.none
  metrics : StrMap := []
  retry_count : Nat := 0

/-- `WorkflowDefinition` from `src/core/task.py`. -/
structure WorkflowDefinition where
  workflow_id : String
  name : String := ""
  tasks : List TaskDefinition

/-- The exception classes the embedded code can raise: the three classes
defined in `src/core/dag.py` plus the Python built-ins it uses.  (`dag.py`
defines no `DuplicateTaskError` class; `add_task` raises the built-in
`ValueError` on a duplicate id.) -/
inductive PyErr
  | valueError (msg : String)
  | workflowDAGError (msg : String)
  | cyclicDependencyError (msg : String)
  | taskNotFoundError (msg : String)
  | notImplementedError (msg : String)
  | runtimeError (msg : String)
  deriving DecidableEq, Repr

/-- Does the error belong to the `WorkflowDAGError` hierarchy declared in
`src/core/dag.py`?  (`ValueError` and the other built-ins do not.) -/
def PyErr.isWorkflowDAGError : PyErr → Bool
  | .workflowDAGError _ => true
  | .cyclicDependencyError _ => true
  | .taskNotFoundError _ => true
  | _ => false

/-! ### The NetworkX directed graph held by `WorkflowDAG.graph`

`nx.DiGraph` is a simple digraph: `add_edge` is a no-op on an existing
edge and silently adds missing endpoints as nodes; `remove_edge` deletes
the edge. -/

/-- Node and edge lists of the `nx.DiGraph` (insertion-ordered, no
duplicates in reachable states). -/
structure Graph where
  nodes : List String
  edges : List (String × String)
  deriving DecidableEq, Repr

/-- `graph.add_node`. -/
def Graph.addNode (g : Graph) (x : String) : Graph :=
  if g.nodes.contains x then g else { g with nodes := g.nodes ++ [x] }

/-- `graph.add_edge u v` (adds missing endpoints, no duplicate edges). -/
def Graph.addEdge (g : Graph) (u v : String) : Graph :=
  let g := (g.addNode u).addNode v
  if g.edges.contains (u, v) then g else { g with edges := g.edges ++ [(u, v)] }

/-- `graph.remove_edge u v`. -/
def Graph.removeEdge (g : Graph) (u v : String) : Graph :=
  { g with edges := g.edges.filter (fun e => !(e == (u, v))) }

/-- Direct predecessors of `v`: sources of edges into `v`
(`graph.predecessors`). -/
def Graph.preds (g : Graph) (v : String) : List String :=
  (g.edges.filter (fun e => e.2 == v)).map Prod.fst

/-- `v` has zero remaining in-degree relative to the not-yet-peeled node
set `rem`. -/
def Graph.isZero (g : Graph) (rem : List String) (v : String) : Bool :=
  (g.preds v).all (fun u => !(rem.contains u))

/-- The nodes of `rem` with zero remaining in-degree. -/
def Graph.zeroIndeg (g : Graph) (rem : List String) : List String :=
  rem.filter (g.isZero rem)

/-- Kahn peeling underlying `nx.topological_generations`: repeatedly strip
the zero-in-degree nodes of the remaining subgraph.  Stops early (without
covering all nodes) exactly when a cycle survives. -/
def Graph.peel (g : Graph) : Nat → List String → List (List String)
  | 0, _ => []
  | Nat.succ fuel, rem =>
    if rem.isEmpty then []
    else
      let z := g.zeroIndeg rem
      if z.isEmpty then []
      else z :: g.peel fuel (rem.filter (fun v => !(z.contains v)))

/-- `nx.topological_generations`, total over the whole node list. -/
def Graph.generations (g : Graph) : List (List String) :=
  g.peel g.nodes.length g.nodes

/-- `nx.is_directed_acyclic_graph`, modelled via Kahn's algorithm: the
graph is acyclic iff peeling covers every node. -/
def Graph.isAcyclic (g : Graph) : Bool :=
  g.generations.flatten.length == g.nodes.length

/-! ### `WorkflowDAG` from `src/core/dag.py` -/

/-- `WorkflowDAG`: the `_tasks` dict plus the NetworkX graph. -/
structure WorkflowDAG where
  workflow_id : String
  tasks : List (String × TaskDefinition)
  graph : Graph

/-- Key list of the `_tasks` dict. -/
def WorkflowDAG.taskIds (d : WorkflowDAG) : List String :=
  d.tasks.map Prod.fst

/-- `WorkflowDAG.add_task` (`dag.py` lines 42-58): raises the built-in
`ValueError` when the id is already registered, otherwise registers the
task and adds the graph node.  Returns the outcome together with the
post-call object state. -/
def WorkflowDAG.add_task (d : WorkflowDAG) (task : TaskDefinition) :
    Except PyErr Unit × WorkflowDAG :=
  if d.taskIds.contains task.task_id then
    (.error (.valueError s!"Task {task.task_id} already exists in DAG"), d)
  else
    (.ok (),
      { d with
        tasks := d.tasks ++ [(task.task_id, task)]
        graph := d.graph.addNode task.task_id })

/-- `WorkflowDAG.add_dependency` (`dag.py` lines 60-88): membership checks,
then add the edge, then test acyclicity and roll the edge back on a cycle. -/
def WorkflowDAG.add_dependency (d : WorkflowDAG) (fromId toId : String) :
    Except PyErr Unit × WorkflowDAG :=
  if !(d.taskIds.contains fromId) then
    (.error (.taskNotFoundError s!"Task {fromId} not found"), d)
  else if !(d.taskIds.contains toId) then
    (.error (.taskNotFoundError s!"Task {toId} not found"), d)
  else
    let g := d.graph.addEdge fromId toId
    if !g.isAcyclic then
      (.error (.cyclicDependencyError
          s!"Adding dependency {fromId} -> {toId} creates a cycle"),
        { d with graph := g.removeEdge fromId toId })
    else
      (.ok (), { d with graph := g })

/-- `WorkflowDAG.validate` (`dag.py` lines 90-117): empty check, cycle
check, dependency-completeness check. -/
def WorkflowDAG.validate (d : WorkflowDAG) : Except PyErr Bool :=
  if d.tasks.isEmpty then
    .error (.workflowDAGError "DAG is empty")
  else if !d.graph.isAcyclic then
    .error (.cyclicDependencyError "DAG contains cycles")
  else if !(d.tasks.all (fun kv => kv.2.depends_on.all
      (fun dep => d.taskIds.contains dep))) then
    .error (.taskNotFoundError "depends on non-existent task")
  else
    .ok true

/-- `WorkflowDAG.get_execution_order` (`dag.py` lines 119-143): the
topological generations; a surviving cycle surfaces as `WorkflowDAGError`. -/
def WorkflowDAG.get_execution_order (d : WorkflowDAG) :
    Except PyErr (List (List String)) :=
  if d.graph.generations.flatten.length == d.graph.nodes.length then
    .ok d.graph.generations
  else
    .error (.workflowDAGError "Failed to compute execution order")

/-! ### Executor layer, `src/core/executor.py`

One call to `executor.execute(task)` either returns a `TaskResult`, raises
an exception, or (when `run_with_metrics` bounds it with the task timeout)
exceeds the deadline.  Which of these happens on the k-th `execute`
invocation is an oracle `Nat → ExecOutcome`; `run_with_metrics` threads a
global invocation counter through the oracle. -/

/-- Outcome of a single `executor.execute` invocation. -/
inductive ExecOutcome
  | ok (r : TaskResult)
  | exn (msg : String)
  | timedOut

/-- The retry loop of `BaseExecutor.run_with_metrics` (`executor.py` lines
65-108): `remaining = max_retries - attempt` counts the attempts still
allowed; `calls` is the number of `execute` invocations made so far.  On a
returned result the loop copies outputs/status/metrics and breaks (mapping
a leftover `RUNNING` to `SUCCESS`); on an exception or inner timeout it
records a `FAILED` status and error and re-attempts while budget remains. -/
def rwmLoop (oracle : Nat → ExecOutcome) (timeoutMsg : String) :
    Nat → Nat → Nat → TaskResult → TaskResult × Nat
  | remaining, attempt, calls, result =>
    let result := { result with retry_count := attempt }
    match oracle calls with
    | .ok tr =>
      ({ result with
          outputs := tr.outputs
          status := if tr.status = .running then .success else tr.status
          metrics := dmerge result.metrics tr.metrics }, calls + 1)
    | .exn msg =>
      let result := { result with error := some msg, status := .failed }
      match remaining with
      | 0 => (result, calls + 1)
      | Nat.succ rem => rwmLoop oracle timeoutMsg rem (attempt + 1) (calls + 1) result
    | .timedOut =>
      let result := { result with error := some timeoutMsg, status := .failed }
      match remaining with
      | 0 => (result, calls + 1)
      | Nat.succ rem => rwmLoop oracle timeoutMsg rem (attempt + 1) (calls + 1) result

/-- `BaseExecutor.run_with_metrics` (`executor.py` lines 46-121): builds the
`RUNNING` tracking result and runs the retry loop for `max_retries + 1`
attempts.  Returns the final result and the advanced invocation counter. -/
def run_with_metrics (oracle : Nat → ExecOutcome) (task : TaskDefinition)
    (calls : Nat) : TaskResult × Nat :=
  rwmLoop oracle
    s!"Task execution timed out after {task.timeout_seconds.getD 0} seconds"
    task.max_retries 0 calls
    { task_id := task.task_id, status := .running }

/-- `HumanExecutor.execute` (`executor.py` lines 259-280): always returns
`WAITING_HUMAN` with approval metadata in `outputs`. -/
def HumanExecutor.execute (task : TaskDefinition) : TaskResult :=
  { task_id := task.task_id
    status := .waiting_human
    outputs := [("approval_required", Val.bool true),
                ("hitl_config", match task.hitl_config with
                  | some m => Val.map m
                  | Option.none => Val.none)] }

/-- `ToolExecutor.execute` (`executor.py` lines 234-246): placeholder
success result. -/
def ToolExecutor.execute (task : TaskDefinition) : TaskResult :=
  { task_id := task.task_id
    status := .success
    outputs := [("placeholder", Val.str "Tool execution pending implementation")] }

/-! ### Orchestrator, `src/core/orchestrator.py`

`WorkflowOrchestrator._execute_task` awaits
`asyncio.wait_for(executor.run_with_metrics(task), timeout)`; one such
orchestrator-level attempt either yields a result, raises
`asyncio.TimeoutError`, or raises another exception.  The attempt function
is a parameter (state-threaded through a `Nat` oracle counter) so that it
can be instantiated either with the faithful `run_with_metrics` semantics
or with claim-specific behaviours. -/

/-- Outcome of one orchestrator-level attempt
(`await asyncio.wait_for(executor.run_with_metrics task, timeout)`). -/
inductive AttemptOutcome
  | res (r : TaskResult)
  | timeoutErr
  | exn (msg : String)

/-- Semantics of the executor call as seen by the orchestrator. -/
abbrev AttemptFn := TaskDefinition → Nat → AttemptOutcome × Nat

/-- The mutable state touched by `_execute_task`: the `WorkflowState`
fields, the shared `TaskDefinition` store (mutated at `orchestrator.py`
line 207), and the oracle counter. -/
structure OrchState where
  task_results : List (String × TaskResult) := []
  completed : List String := []
  running : List String := []
  failed : List String := []
  taskDefs : List (String × TaskDefinition) := []
  oracle : Nat := 0

/-- Add to a Python set modelled as a duplicate-free list. -/
def setAdd (s : List String) (x : String) : List String :=
  if s.contains x then s else s ++ [x]

/-- `set.discard`. -/
def setDiscard (s : List String) (x : String) : List String :=
  s.filter (fun y => !(y == x))

/-- Dict update on a `String`-keyed association store. -/
def storeSet {α : Type} : List (String × α) → String → α → List (String × α)
  | [], k, v => [(k, v)]
  | kv :: rest, k, v =>
    if kv.1 == k then (kv.1, v) :: rest else kv :: storeSet rest k v

/-- Dict lookup on a `String`-keyed association store. -/
def storeGet {α : Type} : List (String × α) → String → Option α
  | [], _ => Option.none
  | kv :: rest, k => if kv.1 == k then some kv.2 else storeGet rest k

/-- `WorkflowOrchestrator._resolve_task_inputs` (`orchestrator.py` lines
287-308): for each dependency with a recorded `SUCCESS` result, expose its
outputs dict under `<dep>_output`. -/
def resolve_task_inputs (task : TaskDefinition)
    (results : List (String × TaskResult)) (base : StrMap) : StrMap :=
  task.depends_on.foldl
    (fun resolved dep =>
      match storeGet results dep with
      | some dr =>
        if dr.status = .success then
          dinsert resolved (dep ++ "_output") (Val.map dr.outputs)
        else resolved
      | Option.none => resolved)
    base

/-- Result of running `_execute_task`: a returned `TaskResult`, the
unreachable trailing `RuntimeError`, or failure to terminate within the
given fuel (the retry loop spins forever when an attempt yields a status
outside `SUCCESS`/`FAILED`/`WAITING_HUMAN`). -/
inductive ExecTaskOut
  | ret (r : TaskResult) (st : OrchState)
  | runtimeErr (st : OrchState)
  | hang

/-- The `while retry_count <= max_retries` loop of
`WorkflowOrchestrator._execute_task` (`orchestrator.py` lines 196-285),
with explicit fuel.  Each iteration re-reads the (shared, possibly already
mutated) task record, resolves inputs, writes them back into the shared
record (line 207), dispatches (an `AGENT` task raises
`NotImplementedError` inside the `try`, caught by `except Exception`), and
branches on the attempt outcome exactly as the source does.  A result
status matching no branch falls through to the next iteration with
`retry_count` unchanged. -/
def execTaskGo (attempt : AttemptFn) (workflow_inputs : StrMap)
    (task_id : String) (maxR : Nat) :
    Nat → Nat → OrchState → ExecTaskOut
  | 0, _, _ => .hang
  | Nat.succ fuel, rc, st =>
    if rc > maxR then .runtimeErr st
    else
      match storeGet st.taskDefs task_id with
      | Option.none => .runtimeErr st
      | some task =>
        let task_inputs := dmerge workflow_inputs task.inputs
        let task_inputs := resolve_task_inputs task st.task_results task_inputs
        let task' := { task with inputs := task_inputs }
        let st := { st with taskDefs := storeSet st.taskDefs task_id task' }
        if task'.task_type = .agent then
          let result : TaskResult :=
            { task_id := task_id, status := .failed
              error := some "Agent executor requires agent instance"
              retry_count := rc }
          .ret result
            { st with
              task_results := storeSet st.task_results task_id result
              failed := setAdd st.failed task_id
              running := setDiscard st.running task_id }
        else
          match attempt task' st.oracle with
          | (.res result, o') =>
            let result := { result with retry_count := rc }
            let st := { st with
              oracle := o'
              task_results := storeSet st.task_results task_id result }
            match result.status with
            | .success =>
              .ret result
                { st with
                  completed := setAdd st.completed task_id
                  running := setDiscard st.running task_id }
            | .waiting_human =>
              .ret result
                { st with
                  completed := setAdd st.completed task_id
                  running := setDiscard st.running task_id }
            | .failed =>
              if rc < maxR then
                execTaskGo attempt workflow_inputs task_id maxR fuel (rc + 1) st
              else
                .ret result
                  { st with
                    failed := setAdd st.failed task_id
                    running := setDiscard st.running task_id }
            | _ =>
              execTaskGo attempt workflow_inputs task_id maxR fuel rc st
          | (.timeoutErr, o') =>
            let result : TaskResult :=
              { task_id := task_id, status := .failed
                error := some s!"Timeout after {task.timeout_seconds.getD 0}s"
                retry_count := rc }
            .ret result
              { st with
                oracle := o'
                task_results := storeSet st.task_results task_id result
                failed := setAdd st.failed task_id
                running := setDiscard st.running task_id }
          | (.exn msg, o') =>
            let result : TaskResult :=
              { task_id := task_id, status := .failed
                error := some msg
                retry_count := rc }
            .ret result
              { st with
                oracle := o'
                task_results := storeSet st.task_results task_id result
                failed := setAdd st.failed task_id
                running := setDiscard st.running task_id }

/-- `WorkflowOrchestrator._execute_task` entry (`orchestrator.py` lines
172-196): mark the task running, then run the retry loop from
`retry_count = 0`.  `maxR + 1` loop iterations always suffice when attempt
statuses stay in the documented set; extra fuel covers the fall-through
case analysed separately. -/
def execute_task (attempt : AttemptFn) (workflow_inputs : StrMap)
    (task_id : String) (fuel : Nat) (st : OrchState) : ExecTaskOut :=
  let st := { st with running := setAdd st.running task_id }
  match storeGet st.taskDefs task_id with
  | Option.none => .runtimeErr st
  | some task =>
    execTaskGo attempt workflow_inputs task_id task.max_retries fuel 0 st

/-- One batch of `WorkflowOrchestrator._execute_dag` (`orchestrator.py`
lines 152-170): run every task of the batch (the `asyncio.gather`
linearised in batch order), converting an escaped exception into
membership of `failed_tasks` as the post-gather loop does. -/
def execBatch (attempt : AttemptFn) (workflow_inputs : StrMap)
    (fuel : Nat) : List String → OrchState → Option OrchState
  | [], st => some st
  | task_id :: rest, st =>
    match execute_task attempt workflow_inputs task_id fuel st with
    | .ret _ st' => execBatch attempt workflow_inputs fuel rest st'
    | .runtimeErr st' =>
      execBatch attempt workflow_inputs fuel rest
        { st' with failed := setAdd st'.failed task_id }
    | .hang => Option.none

/-- `WorkflowOrchestrator._execute_dag` (`orchestrator.py` lines 137-170):
process the topological generations batch by batch.  Every task of every
batch is dispatched unconditionally — nothing consults `completed` or
`failed` before launching a batch. -/
def execDag (attempt : AttemptFn) (workflow_inputs : StrMap) (fuel : Nat) :
    List (List String) → OrchState → Option OrchState
  | [], st => some st
  | batch :: batches, st =>
    match execBatch attempt workflow_inputs fuel batch st with
    | some st' => execDag attempt workflow_inputs fuel batches st'
    | Option.none => Option.none

/-- `WorkflowOrchestrator._build_dag` (`orchestrator.py` lines 318-331):
add every task, then every dependency edge, propagating the first raised
exception. -/
def build_dag (wd : WorkflowDefinition) : Except PyErr WorkflowDAG :=
  let d0 : WorkflowDAG :=
    { workflow_id := wd.workflow_id, tasks := [], graph := ⟨[], []⟩ }
  match wd.tasks.foldlM
      (fun d task =>
        match d.add_task task with
        | (.ok _, d') => Except.ok d'
        | (.error e, _) => Except.error e) d0 with
  | .error e => .error e
  | .ok d1 =>
    wd.tasks.foldlM
      (fun d task =>
        task.depends_on.foldlM
          (fun d dep =>
            match d.add_dependency dep task.task_id with
            | (.ok _, d') => Except.ok d'
            | (.error e, _) => Except.error e) d) d1

/-- Outcome of `execute_workflow`: a raised structural error, a hang, or
the final `WorkflowState` data (status string, results, task sets) along
with the post-run shared task-definition store. -/
inductive WorkflowOut
  | err (e : PyErr)
  | hang
  | done (status : String) (st : OrchState)

/-- `WorkflowOrchestrator.execute_workflow` (`orchestrator.py` lines
79-135): build and validate the DAG, initialise every result to `PENDING`,
run the batches, then set the final status from `failed_tasks`. -/
def execute_workflow (attempt : AttemptFn) (fuel : Nat)
    (wd : WorkflowDefinition) (inputs : StrMap) : WorkflowOut :=
  match build_dag wd with
  | .error e => .err e
  | .ok dag =>
    match dag.validate with
    | .error e => .err e
    | .ok _ =>
      let st0 : OrchState :=
        { task_results := wd.tasks.map
            (fun t => (t.task_id, { task_id := t.task_id, status := .pending }))
          taskDefs := dag.tasks }
      match dag.get_execution_order with
      | .error e => .err e
      | .ok batches =>
        match execDag attempt inputs fuel batches st0 with
        | Option.none => .hang
        | some st =>
          .done (if st.failed.isEmpty then "completed" else "failed") st

/-! ### Helper accessors for stating concrete facts about run outcomes -/

/-- The returned `TaskResult` of an `_execute_task` outcome, if any. -/
def ExecTaskOut.resultOf : ExecTaskOut → Option TaskResult
  | .ret r _ => some r
  | _ => Option.none

/-- The post-call orchestrator state of an `_execute_task` outcome. -/
def ExecTaskOut.stateOf : ExecTaskOut → Option OrchState
  | .ret _ st => some st
  | .runtimeErr st => some st
  | .hang => Option.none

/-- The final workflow status string, if the run finished. -/
def WorkflowOut.statusOf : WorkflowOut → Option String
  | .done s _ => some s
  | _ => Option.none

/-- The final orchestrator state, if the run finished. -/
def WorkflowOut.stateOf : WorkflowOut → Option OrchState
  | .done _ st => some st
  | _ => Option.none

/-! ### Shared lemmas about the association stores and graphs -/

theorem storeGet_storeSet_self {α : Type} (m : List (String × α)) (k : String)
    (v : α) : storeGet (storeSet m k v) k = some v := by
  induction m with
  | nil => simp [storeSet, storeGet]
  | cons kv rest ih =>
    by_cases hk : (kv.1 == k) = true
    · simp [storeSet, storeGet, hk]
    · have hk' : (kv.1 == k) = false := eq_false_of_ne_true hk
      simp [storeSet, storeGet, hk', ih]

/-- `add_edge` is the identity when both endpoints are present and the edge
already exists. -/
theorem Graph.addEdge_of_mem {g : Graph} {u v : String}
    (hu : g.nodes.contains u = true) (hv : g.nodes.contains v = true)
    (he : g.edges.contains (u, v) = true) : g.addEdge u v = g := by
  unfold Graph.addEdge Graph.addNode
  rw [if_pos hu, if_pos hv, if_pos he]

/-- If the graph was acyclic and adding `u → v` makes it cyclic, the edge
cannot already have been present. -/
theorem Graph.not_mem_of_cycle_created {g : Graph} {u v : String}
    (hu : g.nodes.contains u = true) (hv : g.nodes.contains v = true)
    (hacyc : g.isAcyclic = true) (hcyc : (g.addEdge u v).isAcyclic = false) :
    g.edges.contains (u, v) = false := by
  by_contra h
  simp only [Bool.not_eq_false] at h
  rw [Graph.addEdge_of_mem hu hv h, hacyc] at hcyc
  cases hcyc

/-- Rolling back a freshly added edge restores the original graph. -/
theorem Graph.removeEdge_addEdge {g : Graph} {u v : String}
    (hu : g.nodes.contains u = true) (hv : g.nodes.contains v = true)
    (he : g.edges.contains (u, v) = false) :
    (g.addEdge u v).removeEdge u v = g := by
  have hnotmem : (u, v) ∉ g.edges := by simpa using he
  unfold Graph.addEdge Graph.addNode Graph.removeEdge
  rw [if_pos hu, if_pos hv]
  simp only [he, Bool.false_eq_true, if_false, List.filter_append]
  have h1 : g.edges.filter (fun e => !(e == (u, v))) = g.edges := by
    apply List.filter_eq_self.mpr
    intro e hmem
    simp only [Bool.not_eq_eq_eq_not, Bool.not_true]
    by_contra hbe
    simp only [Bool.not_eq_false] at hbe
    exact hnotmem (by rw [← eq_of_beq hbe]; exact hmem)
  have h2 : [(u, v)].filter (fun e => !(e == (u, v))) = [] := by simp
  rw [h1, h2, List.append_nil]

/-! ## C8 — duplicate `add_task` -/

/-- Concrete one-task DAG used to exercise `add_task` on a duplicate id. -/
def c8Task : TaskDefinition := { task_id := "a", task_type := .tool }

def c8Dag : WorkflowDAG :=
  { workflow_id := "w", tasks := [("a", c8Task)], graph := ⟨["a"], []⟩ }

/-- C8 counterexample: registering a task whose id is already present makes
`add_task` raise the Python built-in `ValueError` — not a
`DuplicateTaskError`, which `src/core/dag.py` never defines (the raised
error is not even in the `WorkflowDAGError` hierarchy) — although the
registered tasks and the graph are indeed left unchanged. -/
theorem C8_duplicate_raises_ValueError_cex :
    c8Dag.add_task c8Task =
      (.error (.valueError "Task a already exists in DAG"), c8Dag) ∧
    (PyErr.valueError "Task a already exists in DAG").isWorkflowDAGError
      = false := by
  exact ⟨rfl, rfl⟩

/-- C8 (amended): `add_task` on an already-registered `task_id` fails with
the built-in `ValueError` and leaves the registered tasks and the graph
unchanged. -/
theorem C8_duplicate_add_task_amended (d : WorkflowDAG) (t : TaskDefinition)
    (h : d.taskIds.contains t.task_id = true) :
    d.add_task t =
      (.error (.valueError s!"Task {t.task_id} already exists in DAG"), d) := by
  unfold WorkflowDAG.add_task
  rw [h]
  simp

theorem C8_duplicate_add_task_amended_witness :
    c8Dag.taskIds.contains c8Task.task_id = true ∧
    c8Dag.add_task c8Task =
      (.error (.valueError s!"Task {c8Task.task_id} already exists in DAG"),
        c8Dag) :=
  ⟨rfl, C8_duplicate_add_task_amended c8Dag c8Task rfl⟩

/-! ## C7 — cycle-creating `add_dependency` is all-or-nothing -/

/-- C7: on a reachable (acyclic) graph whose node set mirrors the task
registry, `add_dependency from to` between existing ids that would create
a cycle raises `CyclicDependencyError` and leaves nodes, edges and the
task registry exactly as before the call. -/
theorem C7_add_dependency_cycle_rollback (d : WorkflowDAG) (u v : String)
    (hu : d.taskIds.contains u = true) (hv : d.taskIds.contains v = true)
    (hun : d.graph.nodes.contains u = true)
    (hvn : d.graph.nodes.contains v = true)
    (hacyc : d.graph.isAcyclic = true)
    (hcyc : (d.graph.addEdge u v).isAcyclic = false) :
    d.add_dependency u v =
      (.error (.cyclicDependencyError
        s!"Adding dependency {u} -> {v} creates a cycle"), d) := by
  unfold WorkflowDAG.add_dependency
  rw [hu, hv]
  simp only [Bool.not_true, Bool.false_eq_true, if_false]
  rw [hcyc]
  simp only [Bool.not_false, if_true]
  rw [Graph.removeEdge_addEdge hun hvn
    (Graph.not_mem_of_cycle_created hun hvn hacyc hcyc)]

/-- Concrete witness: `a → b` present, adding `b → a` closes a cycle. -/
def c7Dag : WorkflowDAG :=
  { workflow_id := "w"
    tasks := [("a", c8Task), ("b", { task_id := "b", task_type := .tool })]
    graph := ⟨["a", "b"], [("a", "b")]⟩ }

theorem C7_add_dependency_cycle_rollback_witness :
    c7Dag.add_dependency "b" "a" =
      (.error (.cyclicDependencyError
        "Adding dependency b -> a creates a cycle"), c7Dag) :=
  C7_add_dependency_cycle_rollback c7Dag "b" "a" rfl rfl rfl rfl rfl rfl

/-! ## C9 — when are `outputs` populated? -/

/-- Concrete human-approval task. -/
def c9Task : TaskDefinition := { task_id := "h", task_type := .human }

/-- Invariant along the `run_with_metrics` retry loop: the tracking
result's outputs stay empty on every failure path, so a final result with
non-empty outputs must have taken the returned-result branch, whose status
(after the `RUNNING → SUCCESS` fix-up) is constrained by the executor. -/
theorem rwmLoop_outputs (oracle : Nat → ExecOutcome) (msg : String)
    (hok : ∀ k r, oracle k = .ok r → r.outputs ≠ [] →
      r.status = .success ∨ r.status = .waiting_human ∨ r.status = .running) :
    ∀ remaining attempt calls result, result.outputs = [] →
      (rwmLoop oracle msg remaining attempt calls result).1.outputs ≠ [] →
      (rwmLoop oracle msg remaining attempt calls result).1.status = .success ∨
      (rwmLoop oracle msg remaining attempt calls result).1.status
        = .waiting_human := by
  intro remaining
  induction remaining with
  | zero =>
    intro attempt calls result hemp hne
    rw [rwmLoop] at hne ⊢
    cases h : oracle calls with
    | ok tr =>
      simp only [h] at hne ⊢
      rcases hok calls tr h (by simpa using hne) with h1 | h1 | h1 <;>
        simp [h1]
    | exn m => simp [h, hemp] at hne
    | timedOut => simp [h, hemp] at hne
  | succ rem ih =>
    intro attempt calls result hemp hne
    rw [rwmLoop] at hne ⊢
    cases h : oracle calls with
    | ok tr =>
      simp only [h] at hne ⊢
      rcases hok calls tr h (by simpa using hne) with h1 | h1 | h1 <;>
        simp [h1]
    | exn m =>
      simp only [h] at hne ⊢
      exact ih (attempt + 1) (calls + 1) _ hemp hne
    | timedOut =>
      simp only [h] at hne ⊢
      exact ih (attempt + 1) (calls + 1) _ hemp hne

/-- C9 counterexample: `HumanExecutor.execute` returns a result whose
status is `WAITING_HUMAN` — not `SUCCESS` — and whose `outputs` map is
non-empty (`approval_required` / `hitl_config`), so outputs are not
populated only on `SUCCESS`. -/
theorem C9_waiting_human_outputs_cex :
    (HumanExecutor.execute c9Task).status = .waiting_human ∧
    (HumanExecutor.execute c9Task).outputs ≠ [] ∧
    TaskStatus.waiting_human ≠ TaskStatus.success := by
  refine ⟨rfl, ?_, by decide⟩
  simp [HumanExecutor.execute]

/-- C9 (amended): outputs may be populated on `WAITING_HUMAN` as well as on
`SUCCESS`: the human executor always returns `WAITING_HUMAN` with
non-empty approval metadata, and for any executor whose returned results
carry non-empty outputs only with status `SUCCESS`, `WAITING_HUMAN` or
`RUNNING`, the result of `run_with_metrics` has non-empty outputs only
with final status `SUCCESS` or `WAITING_HUMAN` (every failure path keeps
outputs empty). -/
theorem C9_outputs_only_success_or_waiting_amended
    (task : TaskDefinition) (oracle : Nat → ExecOutcome) (calls : Nat)
    (hok : ∀ k r, oracle k = .ok r → r.outputs ≠ [] →
      r.status = .success ∨ r.status = .waiting_human ∨ r.status = .running) :
    ((HumanExecutor.execute task).status = .waiting_human ∧
      (HumanExecutor.execute task).outputs ≠ []) ∧
    ((run_with_metrics oracle task calls).1.outputs ≠ [] →
      (run_with_metrics oracle task calls).1.status = .success ∨
      (run_with_metrics oracle task calls).1.status = .waiting_human) := by
  constructor
  · exact ⟨rfl, by simp [HumanExecutor.execute]⟩
  · intro hne
    exact rwmLoop_outputs oracle _ hok task.max_retries 0 calls _ rfl hne

theorem C9_outputs_only_success_or_waiting_witness :
    ((HumanExecutor.execute c9Task).status = .waiting_human ∧
      (HumanExecutor.execute c9Task).outputs ≠ []) ∧
    ((run_with_metrics (fun _ => .exn "boom") c9Task 0).1.outputs ≠ [] →
      (run_with_metrics (fun _ => .exn "boom") c9Task 0).1.status = .success ∨
      (run_with_metrics (fun _ => .exn "boom") c9Task 0).1.status
        = .waiting_human) :=
  C9_outputs_only_success_or_waiting_amended c9Task (fun _ => .exn "boom") 0
    (fun _ _ h => nomatch h)

/-! ## C4 — is a timed-out attempt retried? -/

/-- Task with a 5-second timeout and two retries of budget. -/
def c4Task : TaskDefinition :=
  { task_id := "x", task_type := .tool, max_retries := 2
    timeout_seconds := some 5 }

def c4St : OrchState :=
  { taskDefs := [("x", c4Task)]
    task_results := [("x", { task_id := "x", status := .pending })] }

/-- Attempt semantics in which `asyncio.wait_for` raises `TimeoutError` on
every orchestrator-level attempt. -/
def timeoutAttempt : AttemptFn := fun _ n => (.timeoutErr, n + 1)

/-- C4 counterexample: with `max_retries = 2` (budget remaining) and a
first attempt that exceeds the deadline, `_execute_task` returns
terminally after exactly one attempt (`oracle = 1`): the result is
`FAILED` with the timeout error and `retry_count = 0`, and the task id is
already in `failed_tasks` — no re-attempt ever happens, contradicting
"while retry budget remains, the task is re-attempted after a timeout". -/
theorem C4_timeout_terminal_cex :
    (execute_task timeoutAttempt [] "x" 10 c4St).resultOf =
      some { task_id := "x", status := .failed
             error := some "Timeout after 5s", retry_count := 0 } ∧
    ((execute_task timeoutAttempt [] "x" 10 c4St).stateOf.map
      OrchState.oracle) = some 1 ∧
    ((execute_task timeoutAttempt [] "x" 10 c4St).stateOf.map
      OrchState.failed) = some ["x"] ∧
    0 < c4Task.max_retries := by
  refine ⟨rfl, rfl, rfl, by decide⟩

/-- C4 (amended): when an attempt exceeds the deadline the orchestrator
records `FAILED` with a timeout error, but the task is terminally failed
immediately: it is added to `failed_tasks` after that single attempt and
is never re-attempted, regardless of remaining retry budget, and
`retry_count` stays at the index of the timed-out attempt. -/
theorem C4_timeout_terminal_amended (attempt : AttemptFn) (wf : StrMap)
    (tid : String) (task : TaskDefinition) (st : OrchState)
    (rc fuel maxR : Nat) (hrc : ¬ rc > maxR)
    (hlook : storeGet st.taskDefs tid = some task)
    (hagent : ¬ task.task_type = .agent)
    (hatt : ∀ td n, attempt td n = (.timeoutErr, n + 1)) :
    (execTaskGo attempt wf tid maxR (fuel + 1) rc st).resultOf =
      some { task_id := tid, status := .failed
             error := some s!"Timeout after {task.timeout_seconds.getD 0}s"
             retry_count := rc } ∧
    (execTaskGo attempt wf tid maxR (fuel + 1) rc st).stateOf.map
      OrchState.oracle = some (st.oracle + 1) ∧
    (execTaskGo attempt wf tid maxR (fuel + 1) rc st).stateOf.map
      OrchState.failed = some (setAdd st.failed tid) := by
  refine ⟨?_, ?_, ?_⟩ <;>
    simp [execTaskGo, hlook, hatt, hrc, hagent,
      ExecTaskOut.resultOf, ExecTaskOut.stateOf]

theorem C4_timeout_terminal_amended_witness :
    (execTaskGo timeoutAttempt [] "x" 2 (9 + 1) 0 c4St).resultOf =
      some { task_id := "x", status := .failed
             error := some s!"Timeout after {c4Task.timeout_seconds.getD 0}s"
             retry_count := 0 } ∧
    (execTaskGo timeoutAttempt [] "x" 2 (9 + 1) 0 c4St).stateOf.map
      OrchState.oracle = some (c4St.oracle + 1) ∧
    (execTaskGo timeoutAttempt [] "x" 2 (9 + 1) 0 c4St).stateOf.map
      OrchState.failed = some (setAdd c4St.failed "x") :=
  C4_timeout_terminal_amended timeoutAttempt [] "x" c4Task c4St 0 9 2
    (by decide) rfl (by decide) (fun _ _ => rfl)

/-! ## C10 — termination of the `_execute_task` retry loop -/

/-- Under the documented attempt statuses (`SUCCESS`, `FAILED`,
`WAITING_HUMAN` for returned results; exceptions and timeouts
otherwise), every iteration of the retry loop either returns or strictly
decreases the remaining budget `max_retries - retry_count`, so
`maxR - rc + 1` iterations suffice. -/
theorem execTaskGo_no_hang (attempt : AttemptFn) (wf : StrMap) (tid : String)
    (maxR : Nat)
    (hGood : ∀ td n r, (attempt td n).1 = .res r →
      r.status = .success ∨ r.status = .failed ∨ r.status = .waiting_human) :
    ∀ fuel rc st, 1 ≤ fuel → maxR < fuel + rc →
      execTaskGo attempt wf tid maxR fuel rc st ≠ .hang := by
  intro fuel
  induction fuel with
  | zero => intro rc st h1 _; omega
  | succ f ih =>
    intro rc st _ hlt
    rw [execTaskGo]
    by_cases hrc : rc > maxR
    · rw [if_pos hrc]; intro h; cases h
    · rw [if_neg hrc]
      cases hlook : storeGet st.taskDefs tid with
      | none => intro h; cases h
      | some task =>
        simp only []
        by_cases hag : task.task_type = .agent
        · rw [if_pos (by simpa using hag)]
          intro h; cases h
        · rw [if_neg (by simpa using hag)]
          rcases hateq : attempt
              { task with inputs := (resolve_task_inputs task
                st.task_results (dmerge wf task.inputs)) } st.oracle
            with ⟨out, o'⟩
          cases out with
          | res result =>
            have hst := hGood _ _ result (by rw [hateq])
            rcases hst with h1 | h1 | h1
            · simp only [h1]; intro h; cases h
            · simp only [h1]
              by_cases hlt' : rc < maxR
              · rw [if_pos hlt']
                exact ih (rc + 1) _ (by omega) (by omega)
              · rw [if_neg hlt']; intro h; cases h
            · simp only [h1]; intro h; cases h
          | timeoutErr => intro h; cases h
          | exn msg => intro h; cases h

/-- An attempt whose returned result carries the undocumented status
`RUNNING`. -/
def stuckAttempt : AttemptFn := fun td n =>
  (.res { task_id := td.task_id, status := .running }, n + 1)

/-- With such an attempt the loop body matches no branch and re-enters the
loop with `retry_count` unchanged: the loop never returns, whatever the
fuel. -/
theorem execTaskGo_stuck_hangs (wf : StrMap) (tid : String) (maxR : Nat) :
    ∀ fuel rc st task, storeGet st.taskDefs tid = some task →
      ¬ task.task_type = .agent → ¬ rc > maxR →
      execTaskGo stuckAttempt wf tid maxR fuel rc st = .hang := by
  intro fuel
  induction fuel with
  | zero => intro rc st task _ _ _; rw [execTaskGo]
  | succ f ih =>
    intro rc st task hlook hagent hrc
    rw [execTaskGo, if_neg hrc]
    simp only [hlook]
    rw [if_neg hagent]
    exact ih rc _ _ (storeGet_storeSet_self _ _ _) hagent hrc

/-- C10: the retry loop of `_execute_task` terminates whenever every
attempt yields a `SUCCESS`/`FAILED`/`WAITING_HUMAN` result, an exception,
or a timeout — and this precondition is necessary: an attempt returning
the out-of-set status `RUNNING` matches no branch, leaves `retry_count`
unchanged, and the loop never returns, however much fuel it is given. -/
theorem C10_retry_loop_termination (attempt : AttemptFn) (wf : StrMap)
    (tid : String) (maxR fuel rc : Nat) (st st' : OrchState)
    (task : TaskDefinition)
    (hGood : ∀ td n r, (attempt td n).1 = .res r →
      r.status = .success ∨ r.status = .failed ∨ r.status = .waiting_human)
    (hfuel : 1 ≤ fuel) (hlt : maxR < fuel + rc)
    (hlook : storeGet st'.taskDefs tid = some task)
    (hagent : ¬ task.task_type = .agent) (hrc : ¬ rc > maxR) :
    execTaskGo attempt wf tid maxR fuel rc st ≠ .hang ∧
    execTaskGo stuckAttempt wf tid maxR fuel rc st' = .hang :=
  ⟨execTaskGo_no_hang attempt wf tid maxR hGood fuel rc st hfuel hlt,
   execTaskGo_stuck_hangs wf tid maxR fuel rc st' task hlook hagent hrc⟩

/-- Concrete instantiation data for the C10 witness. -/
def c10Task : TaskDefinition := { task_id := "t", task_type := .tool }

def c10St : OrchState := { taskDefs := [("t", c10Task)] }

def c10GoodAttempt : AttemptFn := fun td n =>
  (.res { task_id := td.task_id, status := .success }, n + 1)

theorem C10_retry_loop_termination_witness :
    execTaskGo c10GoodAttempt [] "t" 3 5 0 c10St ≠ .hang ∧
    execTaskGo stuckAttempt [] "t" 3 5 0 c10St = .hang :=
  C10_retry_loop_termination c10GoodAttempt [] "t" 3 5 0 c10St c10St c10Task
    (fun td n r h => by
      simp only [c10GoodAttempt] at h
      cases h
      exact Or.inl rfl)
    (by decide) (by decide) rfl (by decide) (by decide)

/-! ## C2 — attempt counting and the executor-layer retry/timeout policy -/

/-- The orchestrator's attempt semantics when the dispatched call really is
`executor.run_with_metrics` over an `execute` oracle (the oracle counter
counts `execute` invocations). -/
def rwmAttempt (oracle : Nat → ExecOutcome) : AttemptFn := fun td n =>
  (.res (run_with_metrics oracle td n).1, (run_with_metrics oracle td n).2)

/-- With an `execute` that raises on every invocation, one
`run_with_metrics` call consumes `remaining + 1` `execute` invocations:
the retry loop inside the executor layer runs to exhaustion. -/
theorem rwmLoop_exn_calls (msg tmsg : String) :
    ∀ remaining attempt calls result,
      (rwmLoop (fun _ => .exn msg) tmsg remaining attempt calls result).2 =
        calls + remaining + 1 := by
  intro remaining
  induction remaining with
  | zero => intro attempt calls result; rw [rwmLoop]
  | succ rem ih =>
    intro attempt calls result
    rw [rwmLoop]
    simp only []
    rw [ih (attempt + 1) (calls + 1)]
    omega

/-- The result `run_with_metrics` hands back when `execute` returns a
`FAILED` result: the loop breaks after a single `execute` invocation. -/
def okFailedResult (r0 : TaskResult) (td : TaskDefinition) : TaskResult :=
  { task_id := td.task_id, status := .failed, outputs := r0.outputs
    error := Option.none, metrics := dmerge [] r0.metrics, retry_count := 0 }

theorem rwmAttempt_okFailed (r0 : TaskResult) (hr0 : r0.status = .failed)
    (td : TaskDefinition) (n : Nat) :
    rwmAttempt (fun _ => .ok r0) td n =
      (.res (okFailedResult r0 td), n + 1) := by
  unfold rwmAttempt run_with_metrics okFailedResult
  rw [rwmLoop]
  simp [hr0]

/-- The resolved task record the orchestrator writes back into the shared
store before dispatching (`orchestrator.py` lines 198-207). -/
def resolvedTask (wf : StrMap) (st : OrchState) (task : TaskDefinition) :
    TaskDefinition :=
  { task with
    inputs := resolve_task_inputs task st.task_results (dmerge wf task.inputs) }

/-- Orchestrator state after one attempt that returned a `FAILED` result. -/
def failStepState (wf : StrMap) (tid : String) (rc : Nat)
    (F : TaskDefinition → TaskResult) (st : OrchState)
    (task : TaskDefinition) : OrchState :=
  { st with
    taskDefs := storeSet st.taskDefs tid (resolvedTask wf st task)
    oracle := st.oracle + 1
    task_results := storeSet st.task_results tid
      { F (resolvedTask wf st task) with retry_count := rc } }

/-- If every orchestrator-level attempt consumes exactly one oracle step
and yields a `FAILED` result, the retry loop makes exactly
`maxR - rc + 1` attempts: it terminates with `retry_count = maxR` and a
`FAILED` result. -/
theorem execTaskGo_failed_attempts (A : AttemptFn)
    (F : TaskDefinition → TaskResult)
    (hA : ∀ td n, A td n = (.res (F td), n + 1))
    (hF : ∀ td, (F td).status = .failed)
    (wf : StrMap) (tid : String) (maxR : Nat) :
    ∀ d rc fuel st task, rc + d = maxR → d < fuel →
      storeGet st.taskDefs tid = some task → ¬ task.task_type = .agent →
      ∃ r st', execTaskGo A wf tid maxR fuel rc st = .ret r st' ∧
        st'.oracle = st.oracle + (d + 1) ∧ r.retry_count = maxR ∧
        r.status = .failed := by
  intro d
  induction d with
  | zero =>
    intro rc fuel st task hsum hfuel hlook hagent
    obtain ⟨f, rfl⟩ : ∃ f, fuel = f + 1 := ⟨fuel - 1, by omega⟩
    rw [execTaskGo, if_neg (by omega : ¬ rc > maxR)]
    simp only [hlook]
    rw [if_neg hagent]
    rw [hA]
    simp only []
    split
    · rename_i heq; rw [hF] at heq; cases heq
    · rename_i heq; rw [hF] at heq; cases heq
    · rw [if_neg (by omega : ¬ rc < maxR)]
      refine ⟨_, _, rfl, rfl, ?_, ?_⟩
      · show rc = maxR
        omega
      · exact hF _
    · exact absurd (hF _) (by assumption)
  | succ d ih =>
    intro rc fuel st task hsum hfuel hlook hagent
    obtain ⟨f, rfl⟩ : ∃ f, fuel = f + 1 := ⟨fuel - 1, by omega⟩
    rw [execTaskGo, if_neg (by omega : ¬ rc > maxR)]
    simp only [hlook]
    rw [if_neg hagent]
    rw [hA]
    simp only []
    split
    · rename_i heq; rw [hF] at heq; cases heq
    · rename_i heq; rw [hF] at heq; cases heq
    · rw [if_pos (by omega : rc < maxR)]
      obtain ⟨r, st', heq, ho, hrc', hstat⟩ :=
        ih (rc + 1) f (failStepState wf tid rc F st task)
          (resolvedTask wf st task) (by omega) (by omega)
          (storeGet_storeSet_self _ _ _) hagent
      refine ⟨r, st', heq, ?_, hrc', hstat⟩
      have ho2 : st'.oracle = st.oracle + 1 + (d + 1) := ho
      omega
    · exact absurd (hF _) (by assumption)

/-- Concrete task with `max_retries = N`, registered in a fresh state. -/
def c2Task (N : Nat) : TaskDefinition :=
  { task_id := "t", task_type := .tool, max_retries := N }

def c2St (N : Nat) : OrchState :=
  { taskDefs := [("t", c2Task N)]
    task_results := [("t", { task_id := "t", status := .pending })] }

/-- C2 counterexample (`N = 1`): with an `execute` that raises on every
invocation, a single `run_with_metrics` call already consumes 2 `execute`
invocations — the executor layer itself retries (and, when a timeout is
configured, also bounds each `execute` with `asyncio.wait_for`) — and the
full orchestrator run of the task consumes 4 = (N+1)² invocations, not
N+1 = 2.  The recorded `retry_count` is nevertheless `N = 1`. -/
theorem C2_executor_layer_retries_cex :
    (run_with_metrics (fun _ => .exn "boom") (c2Task 1) 0).2 = 2 ∧
    ((execute_task (rwmAttempt (fun _ => .exn "boom")) [] "t" 10
      (c2St 1)).stateOf.map OrchState.oracle) = some 4 ∧
    ((execute_task (rwmAttempt (fun _ => .exn "boom")) [] "t" 10
      (c2St 1)).resultOf.map TaskResult.retry_count) = some 1 ∧
    (4 : Nat) ≠ 1 + 1 :=
  ⟨rfl, rfl, rfl, by decide⟩

/-- C2 (amended): `run_with_metrics` itself implements retry (and timeout)
— over an always-raising `execute` it performs `N + 1` invocations within
a single orchestrator attempt — so that policy does not sit only in the
orchestrator.  The claimed count `N + 1` holds for an executor that fails
by returning a `FAILED` result on every invocation (no exception): then
`execute` runs exactly `N + 1` times across the workflow run and the
recorded `retry_count` equals `N`. -/
theorem C2_retry_counts_amended (N : Nat) (msg : String) (r0 : TaskResult)
    (hr0 : r0.status = .failed) (wf : StrMap) :
    (∃ r st', execTaskGo (rwmAttempt (fun _ => .ok r0)) wf "t" N (N + 1) 0
        (c2St N) = .ret r st' ∧
      st'.oracle = N + 1 ∧ r.retry_count = N ∧ r.status = .failed) ∧
    (run_with_metrics (fun _ => .exn msg) (c2Task N) 0).2 = N + 1 := by
  constructor
  · obtain ⟨r, st', heq, ho, hrc, hstat⟩ :=
      execTaskGo_failed_attempts (rwmAttempt (fun _ => .ok r0))
        (okFailedResult r0) (rwmAttempt_okFailed r0 hr0)
        (fun td => rfl) wf "t" N N 0 (N + 1) (c2St N) (c2Task N)
        (by omega) (by omega) rfl (by simp [c2Task])
    refine ⟨r, st', heq, ?_, hrc, hstat⟩
    have ho2 : st'.oracle = 0 + (N + 1) := ho
    omega
  · rw [show N + 1 = 0 + N + 1 by omega]
    exact rwmLoop_exn_calls msg _ N 0 0 _

theorem C2_retry_counts_amended_witness :
    (∃ r st', execTaskGo
        (rwmAttempt (fun _ => .ok { task_id := "e", status := .failed }))
        [] "t" 1 (1 + 1) 0 (c2St 1) = .ret r st' ∧
      st'.oracle = 1 + 1 ∧ r.retry_count = 1 ∧ r.status = .failed) ∧
    (run_with_metrics (fun _ => .exn "boom") (c2Task 1) 0).2 = 1 + 1 :=
  C2_retry_counts_amended 1 "boom" { task_id := "e", status := .failed }
    rfl []

/-! ## C3 — does execution mutate the shared `TaskDefinition`? -/

/-- Task compiled with empty `inputs`. -/
def c3Task : TaskDefinition := { task_id := "t", task_type := .tool }

def c3Wd : WorkflowDefinition := { workflow_id := "w", tasks := [c3Task] }

/-- Attempt that succeeds immediately. -/
def successAttempt : AttemptFn := fun td n =>
  (.res { task_id := td.task_id, status := .success }, n + 1)

/-- C3 counterexample: the task is compiled with `inputs = {}`, but after
`execute_workflow` returns, the shared record's `inputs` field holds the
resolved inputs (here the workflow-level inputs) — `orchestrator.py` line
207 (`task.inputs = task_inputs`) writes into the shared
`TaskDefinition`, so the compile-time value is not preserved. -/
theorem C3_shared_record_mutated_cex :
    c3Task.inputs = [] ∧
    ((execute_workflow successAttempt 2 c3Wd
        [("a", Val.str "v")]).stateOf.bind
      (fun st => (storeGet st.taskDefs "t").map TaskDefinition.inputs)) =
      some [("a", Val.str "v")] ∧
    some [("a", Val.str "v")] ≠ some ([] : StrMap) := by
  refine ⟨rfl, rfl, by simp⟩

/-- C3 (amended): executing a workflow does mutate the shared
`TaskDefinition` records: on every attempt the orchestrator overwrites the
shared record's `inputs` with the freshly resolved inputs (workflow inputs
merged with task inputs and dependency outputs), so after a run the field
holds the last resolved value rather than its compile-time value, and a
second run of the same definition starts from the mutated record. -/
theorem C3_resolved_inputs_written_back_amended (attempt : AttemptFn)
    (wf : StrMap) (tid : String) (task : TaskDefinition) (st : OrchState)
    (r : TaskResult) (fuel maxR : Nat)
    (hlook : storeGet st.taskDefs tid = some task)
    (hagent : ¬ task.task_type = .agent)
    (hatt : ∀ td n, attempt td n = (.res r, n + 1))
    (hr : r.status = .success) :
    ∃ st', execTaskGo attempt wf tid maxR (fuel + 1) 0 st =
        .ret { r with retry_count := 0 } st' ∧
      storeGet st'.taskDefs tid = some (resolvedTask wf st task) ∧
      (resolvedTask wf st task).inputs =
        resolve_task_inputs task st.task_results (dmerge wf task.inputs) := by
  rw [execTaskGo, if_neg (by omega : ¬ 0 > maxR)]
  simp only [hlook]
  rw [if_neg hagent]
  rw [hatt]
  simp only []
  split
  · exact ⟨_, rfl, storeGet_storeSet_self _ _ _, rfl⟩
  · rename_i heq; rw [hr] at heq; cases heq
  · rename_i heq; rw [hr] at heq; cases heq
  · exact absurd hr (by assumption)

/-- Attempt returning a fixed successful result, for witnesses. -/
def constSuccessAttempt : AttemptFn := fun _ n =>
  (.res { task_id := "t", status := .success }, n + 1)

theorem C3_resolved_inputs_written_back_witness :
    ∃ st', execTaskGo constSuccessAttempt [("a", Val.str "v")] "t"
        c3Task.max_retries (1 + 1) 0
        { taskDefs := [("t", c3Task)]
          task_results := [("t", { task_id := "t", status := .pending })] } =
        .ret { task_id := "t", status := .success, retry_count := 0 } st' ∧
      storeGet st'.taskDefs "t" = some (resolvedTask [("a", Val.str "v")]
        { taskDefs := [("t", c3Task)]
          task_results := [("t", { task_id := "t", status := .pending })] }
        c3Task) ∧
      (resolvedTask [("a", Val.str "v")]
        { taskDefs := [("t", c3Task)]
          task_results := [("t", { task_id := "t", status := .pending })] }
        c3Task).inputs =
        resolve_task_inputs c3Task
          [("t", { task_id := "t", status := .pending })]
          (dmerge [("a", Val.str "v")] c3Task.inputs) :=
  C3_resolved_inputs_written_back_amended constSuccessAttempt
    [("a", Val.str "v")] "t" c3Task
    { taskDefs := [("t", c3Task)]
      task_results := [("t", { task_id := "t", status := .pending })] }
    { task_id := "t", status := .success } 1 c3Task.max_retries
    rfl (by simp [c3Task]) (fun _ _ => rfl) rfl

/-! ## C6 — a sole `WAITING_HUMAN` task completes the workflow -/

/-- C6: a workflow whose sole task's attempt yields a `WAITING_HUMAN`
result finishes with that task in the completed set, its recorded result
still `WAITING_HUMAN`, an empty failed set, and overall status
`"completed"`. -/
theorem C6_waiting_human_completes (attempt : AttemptFn)
    (td : TaskDefinition) (r : TaskResult) (inputs : StrMap) (fuel : Nat)
    (hdeps : td.depends_on = [])
    (hagent : ¬ td.task_type = .agent)
    (hatt : ∀ t n, attempt t n = (.res r, n + 1))
    (hr : r.status = .waiting_human) (hf : 1 ≤ fuel) :
    (execute_workflow attempt fuel
        { workflow_id := "w", tasks := [td] } inputs).statusOf =
      some "completed" ∧
    ((execute_workflow attempt fuel
        { workflow_id := "w", tasks := [td] } inputs).stateOf.map
      OrchState.completed) = some [td.task_id] ∧
    ((execute_workflow attempt fuel
        { workflow_id := "w", tasks := [td] } inputs).stateOf.bind
      (fun st => storeGet st.task_results td.task_id)) =
      some { r with retry_count := 0 } ∧
    ((execute_workflow attempt fuel
        { workflow_id := "w", tasks := [td] } inputs).stateOf.map
      OrchState.failed) = some [] := by
  obtain ⟨f, rfl⟩ : ∃ f, fuel = f + 1 := ⟨fuel - 1, by omega⟩
  refine ⟨?_, ?_, ?_, ?_⟩ <;>
    simp [execute_workflow, build_dag, WorkflowDAG.add_task,
      WorkflowDAG.taskIds, WorkflowDAG.validate,
      WorkflowDAG.get_execution_order, Graph.generations, Graph.peel,
      Graph.zeroIndeg, Graph.isZero, Graph.preds, Graph.addNode,
      Graph.isAcyclic, hdeps, execDag, execBatch, execute_task, execTaskGo,
      setAdd, setDiscard, storeGet, storeSet, resolve_task_inputs, hagent,
      hatt, hr, WorkflowOut.statusOf, WorkflowOut.stateOf,
      List.foldlM, pure, Except.pure, bind, Except.bind]

def c6Task : TaskDefinition := { task_id := "t", task_type := .human }

/-- Attempt that always yields the human executor's result for `c6Task`
(a fixed `WAITING_HUMAN` result). -/
def c6Attempt : AttemptFn := fun _ n =>
  (.res (HumanExecutor.execute c6Task), n + 1)

theorem C6_waiting_human_completes_witness :
    (execute_workflow c6Attempt 1
        { workflow_id := "w", tasks := [c6Task] } []).statusOf =
      some "completed" ∧
    ((execute_workflow c6Attempt 1
        { workflow_id := "w", tasks := [c6Task] } []).stateOf.map
      OrchState.completed) = some [c6Task.task_id] ∧
    ((execute_workflow c6Attempt 1
        { workflow_id := "w", tasks := [c6Task] } []).stateOf.bind
      (fun st => storeGet st.task_results c6Task.task_id)) =
      some { HumanExecutor.execute c6Task with retry_count := 0 } ∧
    ((execute_workflow c6Attempt 1
        { workflow_id := "w", tasks := [c6Task] } []).stateOf.map
      OrchState.failed) = some [] := by
  have h := C6_waiting_human_completes c6Attempt c6Task
    (HumanExecutor.execute c6Task) [] 1 rfl (by simp [c6Task])
    (fun t n => rfl) rfl (by decide)
  exact h

/-! ## C1 — what happens to the dependent of a permanently failed task -/

def c1X : TaskDefinition :=
  { task_id := "x", task_type := .tool, max_retries := 1 }

def c1Y : TaskDefinition :=
  { task_id := "y", task_type := .tool, depends_on := ["x"] }

def c1Wd : WorkflowDefinition := { workflow_id := "w", tasks := [c1X, c1Y] }

/-- Attempt semantics: task `x` yields `rx`, every other task yields
`ry`. -/
def c1Attempt (rx ry : TaskResult) : AttemptFn := fun t n =>
  (if t.task_id == "x" then .res rx else .res ry, n + 1)

def c1rx : TaskResult :=
  { task_id := "x", status := .failed, error := some "boom" }

def c1ry : TaskResult :=
  { task_id := "y", status := .success, outputs := [("k", Val.str "v")] }

/-- C1 counterexample: `x` fails permanently (two failed attempts exhaust
`max_retries = 1`) and `y` depends on `x`, yet `y` IS dispatched — the
oracle counter reaches 3, counting `y`'s attempt after `x`'s two — and
`y`'s recorded result is its executor's `SUCCESS` result, not `PENDING`.
`_execute_dag` launches every task of every batch unconditionally.  Only
the final status `"failed"` part of the claim holds. -/
theorem C1_dependent_still_dispatched_cex :
    (execute_workflow (c1Attempt c1rx c1ry) 2 c1Wd []).statusOf =
      some "failed" ∧
    ((execute_workflow (c1Attempt c1rx c1ry) 2 c1Wd []).stateOf.bind
      (fun st => (storeGet st.task_results "y").map TaskResult.status)) =
      some TaskStatus.success ∧
    TaskStatus.success ≠ TaskStatus.pending ∧
    ((execute_workflow (c1Attempt c1rx c1ry) 2 c1Wd []).stateOf.map
      OrchState.oracle) = some 3 ∧
    ((execute_workflow (c1Attempt c1rx c1ry) 2 c1Wd []).stateOf.map
      OrchState.completed) = some ["y"] :=
  ⟨rfl, rfl, by decide, rfl, rfl⟩

/-- C1 (amended): when `x` fails permanently and `y` depends on `x`, the
final workflow status is `"failed"` and `x` is in the failed set with
`retry_count = max_retries`, but `y` is still dispatched in its batch
(the attempt oracle advances for it) and its result is whatever its
executor returns — here `SUCCESS`, placing `y` in the completed set —
rather than staying `PENDING`. -/
theorem C1_failed_dependency_amended (rx ry : TaskResult)
    (hx : rx.status = .failed) (hy : ry.status = .success) :
    (execute_workflow (c1Attempt rx ry) 2 c1Wd []).statusOf =
      some "failed" ∧
    ((execute_workflow (c1Attempt rx ry) 2 c1Wd []).stateOf.map
      OrchState.completed) = some ["y"] ∧
    ((execute_workflow (c1Attempt rx ry) 2 c1Wd []).stateOf.map
      OrchState.failed) = some ["x"] ∧
    ((execute_workflow (c1Attempt rx ry) 2 c1Wd []).stateOf.bind
      (fun st => storeGet st.task_results "y")) =
      some { ry with retry_count := 0 } ∧
    ((execute_workflow (c1Attempt rx ry) 2 c1Wd []).stateOf.bind
      (fun st => storeGet st.task_results "x")) =
      some { rx with retry_count := 1 } ∧
    ((execute_workflow (c1Attempt rx ry) 2 c1Wd []).stateOf.map
      OrchState.oracle) = some 3 := by
  refine ⟨?_, ?_, ?_, ?_, ?_, ?_⟩ <;>
    simp [execute_workflow, build_dag, WorkflowDAG.add_task,
      WorkflowDAG.add_dependency, WorkflowDAG.taskIds, WorkflowDAG.validate,
      WorkflowDAG.get_execution_order, Graph.generations, Graph.peel,
      Graph.zeroIndeg, Graph.isZero, Graph.preds, Graph.addNode,
      Graph.addEdge, Graph.isAcyclic, execDag, execBatch, execute_task,
      execTaskGo, setAdd, setDiscard, storeGet, storeSet,
      resolve_task_inputs, hx, hy, c1Wd, c1X, c1Y, c1Attempt,
      WorkflowOut.statusOf, WorkflowOut.stateOf,
      List.foldlM, pure, Except.pure, bind, Except.bind]

theorem C1_failed_dependency_amended_witness :
    (execute_workflow (c1Attempt c1rx c1ry) 2 c1Wd []).statusOf =
      some "failed" ∧
    ((execute_workflow (c1Attempt c1rx c1ry) 2 c1Wd []).stateOf.map
      OrchState.completed) = some ["y"] ∧
    ((execute_workflow (c1Attempt c1rx c1ry) 2 c1Wd []).stateOf.map
      OrchState.failed) = some ["x"] ∧
    ((execute_workflow (c1Attempt c1rx c1ry) 2 c1Wd []).stateOf.bind
      (fun st => storeGet st.task_results "y")) =
      some { c1ry with retry_count := 0 } ∧
    ((execute_workflow (c1Attempt c1rx c1ry) 2 c1Wd []).stateOf.bind
      (fun st => storeGet st.task_results "x")) =
      some { c1rx with retry_count := 1 } ∧
    ((execute_workflow (c1Attempt c1rx c1ry) 2 c1Wd []).stateOf.map
      OrchState.oracle) = some 3 :=
  C1_failed_dependency_amended c1rx c1ry rfl rfl

/-! ## C5 — `get_execution_order` yields a layered topological order -/

/-- `u` is a (transitive) dependency of `v`: there is a non-empty edge
path from `u` to `v`. -/
inductive Reach (g : Graph) : String → String → Prop
  | base {u v : String} : (u, v) ∈ g.edges → Reach g u v
  | step {u w v : String} : (u, w) ∈ g.edges → Reach g w v → Reach g u v

theorem mem_preds_of_edge {g : Graph} {u v : String}
    (h : (u, v) ∈ g.edges) : u ∈ g.preds v := by
  unfold Graph.preds
  exact List.mem_map.mpr ⟨(u, v), List.mem_filter.mpr ⟨h, by simp⟩, rfl⟩

/-- A node that is not zero-in-degree in `rem` has a predecessor in
`rem`. -/
theorem exists_pred_of_not_isZero {g : Graph} {rem : List String}
    {v : String} (h : g.isZero rem v = false) :
    ∃ u, u ∈ g.preds v ∧ u ∈ rem := by
  unfold Graph.isZero at h
  by_contra hc
  push_neg at hc
  have hall : (g.preds v).all (fun u => !(rem.contains u)) = true := by
    rw [List.all_eq_true]
    intro u hu
    simpa using hc u hu
  rw [hall] at h
  cases h

/-- A zero-in-degree node of `rem` has no predecessor in `rem`. -/
theorem not_mem_of_isZero {g : Graph} {rem : List String} {v u : String}
    (h : g.isZero rem v = true) (hu : u ∈ g.preds v) : u ∉ rem := by
  unfold Graph.isZero at h
  have := List.all_eq_true.mp h u hu
  simpa using this

/-- Everything peeled was in the remaining set. -/
theorem peel_flatten_subset (g : Graph) :
    ∀ fuel rem x, x ∈ (g.peel fuel rem).flatten → x ∈ rem := by
  intro fuel
  induction fuel with
  | zero => intro rem x hx; rw [Graph.peel] at hx; simp at hx
  | succ f ih =>
    intro rem x hx
    rw [Graph.peel] at hx
    by_cases hempty : rem.isEmpty
    · rw [if_pos hempty] at hx; simp at hx
    · rw [if_neg hempty] at hx
      by_cases hz : (g.zeroIndeg rem).isEmpty
      · rw [if_pos hz] at hx; simp at hx
      · rw [if_neg hz] at hx
        simp only [List.flatten_cons] at hx
        rcases List.mem_append.mp hx with h1 | h1
        · exact (List.mem_filter.mp h1).1
        · exact (List.mem_filter.mp (ih _ x h1)).1

/-- Peeling a duplicate-free remaining set produces a duplicate-free
flattening (the batches are pairwise disjoint). -/
theorem peel_flatten_nodup (g : Graph) :
    ∀ fuel rem, rem.Nodup → (g.peel fuel rem).flatten.Nodup := by
  intro fuel
  induction fuel with
  | zero => intro rem _; rw [Graph.peel]; simp
  | succ f ih =>
    intro rem hnd
    rw [Graph.peel]
    by_cases hempty : rem.isEmpty
    · rw [if_pos hempty]; simp
    · rw [if_neg hempty]
      by_cases hz : (g.zeroIndeg rem).isEmpty
      · rw [if_pos hz]; simp
      · rw [if_neg hz]
        have hz_nd : (g.zeroIndeg rem).Nodup := hnd.filter _
        have hrem' : (rem.filter
            (fun v => !((g.zeroIndeg rem).contains v))).Nodup :=
          hnd.filter _
        have hrest := ih _ hrem'
        simp only [List.flatten_cons]
        rw [List.nodup_append]
        refine ⟨hz_nd, hrest, ?_⟩
        intro x hxz hxrest
        have hx' := peel_flatten_subset g f _ x hxrest
        have h2 : x ∉ g.zeroIndeg rem := by
          simpa using (List.mem_filter.mp hx').2
        exact h2 hxz

/-- The head batch of a peel is the zero-in-degree set of the remaining
nodes. -/
theorem peel_head (g : Graph) {fuel : Nat} {rem : List String}
    {b : List String} (h : (g.peel fuel rem).get? 0 = some b) :
    b = g.zeroIndeg rem := by
  cases fuel with
  | zero => rw [Graph.peel] at h; cases h
  | succ f =>
    rw [Graph.peel] at h
    by_cases hempty : rem.isEmpty
    · rw [if_pos hempty] at h; cases h
    · rw [if_neg hempty] at h
      by_cases hz : (g.zeroIndeg rem).isEmpty
      · rw [if_pos hz] at h; cases h
      · rw [if_neg hz] at h
        simpa using h.symm

/-- Indices into a duplicate-free flattening are unique: an element cannot
occur in two different batches. -/
theorem nodup_flatten_index_unique :
    ∀ (L : List (List String)) (i j : Nat) (a b : List String) (x : String),
      L.flatten.Nodup → L.get? i = some a → L.get? j = some b →
      x ∈ a → x ∈ b → i = j := by
  intro L
  induction L with
  | nil => intro i j a b x _ ha _ _ _; cases i <;> cases ha
  | cons hd tl ih =>
    intro i j a b x hnd ha hb hxa hxb
    simp only [List.flatten_cons, List.nodup_append] at hnd
    obtain ⟨hhd, htl, hdisj⟩ := hnd
    cases i with
    | zero =>
      cases j with
      | zero => rfl
      | succ j' =>
        simp only [List.get?_cons_zero] at ha
        simp only [List.get?_cons_succ] at hb
        cases ha
        exact absurd (List.mem_flatten.mpr ⟨b, List.get?_mem hb, hxb⟩)
          (fun hc => hdisj hxa hc)
    | succ i' =>
      cases j with
      | zero =>
        simp only [List.get?_cons_zero] at hb
        simp only [List.get?_cons_succ] at ha
        cases hb
        exact absurd (List.mem_flatten.mpr ⟨a, List.get?_mem ha, hxa⟩)
          (fun hc => (hdisj hxb hc).elim)
      | succ j' =>
        simp only [List.get?_cons_succ] at ha hb
        exact congrArg Nat.succ (ih i' j' a b x htl ha hb hxa hxb)

/-- Topological property of the peeling: a predecessor (still in the
remaining set) of a node in batch `i` was peeled in a strictly earlier
batch. -/
theorem peel_topo (g : Graph) :
    ∀ fuel rem i b v, (g.peel fuel rem).get? i = some b → v ∈ b →
      ∀ u, u ∈ g.preds v → u ∈ rem →
      ∃ j bj, j < i ∧ (g.peel fuel rem).get? j = some bj ∧ u ∈ bj := by
  intro fuel
  induction fuel with
  | zero =>
    intro rem i b v hb _ _ _ _
    rw [Graph.peel] at hb
    cases i <;> cases hb
  | succ f ih =>
    intro rem i b v hb hvb u hu hurem
    rw [Graph.peel] at hb ⊢
    by_cases hempty : rem.isEmpty
    · rw [if_pos hempty] at hb; cases i <;> cases hb
    · rw [if_neg hempty] at hb ⊢
      by_cases hz : (g.zeroIndeg rem).isEmpty
      · rw [if_pos hz] at hb; cases i <;> cases hb
      · rw [if_neg hz] at hb ⊢
        cases i with
        | zero =>
          simp only [List.get?_cons_zero] at hb
          cases hb
          have hzv : g.isZero rem v = true := (List.mem_filter.mp hvb).2
          exact absurd hurem (not_mem_of_isZero hzv hu)
        | succ i' =>
          simp only [List.get?_cons_succ] at hb
          by_cases huz : u ∈ g.zeroIndeg rem
          · exact ⟨0, g.zeroIndeg rem, Nat.succ_pos _, rfl, huz⟩
          · have hurem' : u ∈ rem.filter
                (fun w => !((g.zeroIndeg rem).contains w)) :=
              List.mem_filter.mpr ⟨hurem, by simpa using huz⟩
            obtain ⟨j, bj, hj, hbj, hubj⟩ := ih _ i' b v hb hvb u hu hurem'
            exact ⟨j + 1, bj, by omega, by simpa using hbj, hubj⟩

/-- Minimality of the layering: every node of batch `i + 1` has a direct
predecessor in batch `i` (otherwise it would already have been peeled). -/
theorem peel_consec (g : Graph) :
    ∀ fuel rem i b v, (g.peel fuel rem).get? (i + 1) = some b → v ∈ b →
      ∃ u bj, u ∈ g.preds v ∧ (g.peel fuel rem).get? i = some bj ∧
        u ∈ bj := by
  intro fuel
  induction fuel with
  | zero => intro rem i b v hb _; rw [Graph.peel] at hb; cases hb
  | succ f ih =>
    intro rem i b v hb hvb
    rw [Graph.peel] at hb ⊢
    by_cases hempty : rem.isEmpty
    · rw [if_pos hempty] at hb; cases hb
    · rw [if_neg hempty] at hb ⊢
      by_cases hz : (g.zeroIndeg rem).isEmpty
      · rw [if_pos hz] at hb; cases hb
      · rw [if_neg hz] at hb ⊢
        simp only [List.get?_cons_succ] at hb
        cases i with
        | zero =>
          have hbeq := peel_head g hb
          rw [hbeq] at hvb
          have hv1 := List.mem_filter.mp hvb
          have hvrem : v ∈ rem := (List.mem_filter.mp hv1.1).1
          have hvnz : v ∉ g.zeroIndeg rem := by
            simpa using (List.mem_filter.mp hv1.1).2
          have hfz : g.isZero rem v = false := by
            by_contra hcc
            simp only [Bool.not_eq_false] at hcc
            exact hvnz (List.mem_filter.mpr ⟨hvrem, hcc⟩)
          obtain ⟨u, hu, hurem⟩ := exists_pred_of_not_isZero hfz
          have hunot : u ∉ rem.filter
              (fun w => !((g.zeroIndeg rem).contains w)) :=
            not_mem_of_isZero hv1.2 hu
          have huz : u ∈ g.zeroIndeg rem := by
            by_contra hc2
            exact hunot (List.mem_filter.mpr ⟨hurem, by simpa using hc2⟩)
          exact ⟨u, g.zeroIndeg rem, hu, rfl, huz⟩
        | succ i' =>
          obtain ⟨u, bj, hu, hbj, hubj⟩ := ih _ i' b v hb hvb
          exact ⟨u, bj, hu, by simpa using hbj, hubj⟩

/-- On an acyclic graph with duplicate-free nodes, the generations cover
every node exactly once. -/
theorem generations_perm {g : Graph} (hnd : g.nodes.Nodup)
    (hacyc : g.isAcyclic = true) :
    (g.generations.flatten).Perm g.nodes := by
  have hsub : g.generations.flatten ⊆ g.nodes := fun x hx =>
    peel_flatten_subset g _ _ x hx
  have hnd' : g.generations.flatten.Nodup := peel_flatten_nodup g _ _ hnd
  have hlen : g.generations.flatten.length = g.nodes.length := by
    unfold Graph.isAcyclic at hacyc
    simpa using hacyc
  exact (List.subperm_of_subset hnd' hsub).perm_of_length_le (by omega)

/-- C5: for a valid graph (duplicate-free non-empty node list, edges
between existing nodes, acyclic), the batches of
`get_execution_order` / `topological_generations`:
(1) contain every task exactly once (the flattening is a permutation of
the nodes); (2) are topologically ordered — the batch of a dependency is
strictly earlier than the batch of its dependent; (3) are minimal — every
task of batch `i + 1` has a direct dependency in batch `i`, so batch `i`
holds exactly the tasks whose (transitive) dependencies all lie in
batches `< i` and that are not placed earlier; and (4) every transitive
dependency of a task in batch `i` lies in some batch `j < i`. -/
theorem C5_execution_order_topological (g : Graph)
    (hnd : g.nodes.Nodup) (hne : g.nodes ≠ [])
    (hedges : ∀ u v, (u, v) ∈ g.edges → u ∈ g.nodes ∧ v ∈ g.nodes)
    (hacyc : g.isAcyclic = true) :
    (g.generations.flatten).Perm g.nodes ∧
    (∀ i j bi bj u v, g.generations.get? i = some bi →
      g.generations.get? j = some bj → v ∈ bi → u ∈ bj →
      (u, v) ∈ g.edges → j < i) ∧
    (∀ i bi v, g.generations.get? (i + 1) = some bi → v ∈ bi →
      ∃ u bj, u ∈ g.preds v ∧ g.generations.get? i = some bj ∧ u ∈ bj) ∧
    (∀ i bi v u, g.generations.get? i = some bi → v ∈ bi → Reach g u v →
      ∃ j bj, j < i ∧ g.generations.get? j = some bj ∧ u ∈ bj) := by
  have hperm := generations_perm hnd hacyc
  have hndf : g.generations.flatten.Nodup := peel_flatten_nodup g _ _ hnd
  refine ⟨hperm, ?_, ?_, ?_⟩
  · intro i j bi bj u v hbi hbj hvbi hubj he
    obtain ⟨j', bj', hj', hbj', hubj'⟩ :=
      peel_topo g _ _ i bi v hbi hvbi u (mem_preds_of_edge he)
        (hedges _ _ he).1
    have : j = j' := nodup_flatten_index_unique _ j j' bj bj' u hndf
      hbj hbj' hubj hubj'
    omega
  · intro i bi v hbi hvbi
    exact peel_consec g _ _ i bi v hbi hvbi
  · intro i bi v u hbi hvbi hreach
    induction hreach generalizing i bi with
    | base he =>
      exact peel_topo g _ _ i bi _ hbi hvbi _ (mem_preds_of_edge he)
        (hedges _ _ he).1
    | step he hr ih2 =>
      obtain ⟨k, bk, hk, hbk, hwbk⟩ := ih2 i bi hbi hvbi
      obtain ⟨l, bl, hl, hbl, hubl⟩ :=
        peel_topo g _ _ k bk _ hbk hwbk _ (mem_preds_of_edge he)
          (hedges _ _ he).1
      exact ⟨l, bl, by omega, hbl, hubl⟩

/-- The diamond graph `a → b, a → c, b → d, c → d`. -/
def c5G : Graph :=
  { nodes := ["a", "b", "c", "d"]
    edges := [("a", "b"), ("a", "c"), ("b", "d"), ("c", "d")] }

theorem C5_execution_order_topological_witness :
    (c5G.nodes.Nodup ∧ c5G.nodes ≠ [] ∧ c5G.isAcyclic = true) ∧
    ((c5G.generations.flatten).Perm c5G.nodes ∧
    (∀ i j bi bj u v, c5G.generations.get? i = some bi →
      c5G.generations.get? j = some bj → v ∈ bi → u ∈ bj →
      (u, v) ∈ c5G.edges → j < i) ∧
    (∀ i bi v, c5G.generations.get? (i + 1) = some bi → v ∈ bi →
      ∃ u bj, u ∈ c5G.preds v ∧ c5G.generations.get? i = some bj ∧
        u ∈ bj) ∧
    (∀ i bi v u, c5G.generations.get? i = some bi → v ∈ bi →
      Reach c5G u v →
      ∃ j bj, j < i ∧ c5G.generations.get? j = some bj ∧ u ∈ bj)) :=
  ⟨⟨by decide, by decide, by decide⟩,
    C5_execution_order_topological c5G (by decide) (by decide)
      (by
        intro u v h
        simp only [c5G, List.mem_cons, List.not_mem_nil, or_false,
          Prod.mk.injEq] at h
        rcases h with ⟨rfl, rfl⟩ | ⟨rfl, rfl⟩ | ⟨rfl, rfl⟩ | ⟨rfl, rfl⟩ <;>
          exact ⟨by decide, by decide⟩)
      (by decide)⟩

end NexusRay
